import Mathlib

/-!
Verification development for the Health-Triage chat application.

The development shallowly embeds the three pieces of the repository that the
properties below are about:

* the conversation formatter and analysis client of
  src/services/geminiService.ts (definitions formatMessage, formatHistory,
  analyzeHealthCondition);
* the session controller of src/App.tsx (definitions handleSubmitSync,
  handleSubmitError, stepEvent, Reachable);
* the capture component of src/components/Recorder.tsx (definitions
  cleanupStream, cancelExit, recordingCompleteExit, teardownExit).

Machine integers do not occur; JavaScript strings are modelled as String,
optional fields as Option, absent-or-empty arrays as List.
-/

namespace HealthTriage

/-- Role of a chat turn, from the string union in src/types.ts. -/
inductive Role
  | user
  | model
deriving DecidableEq, Repr

/-- Media kind of an attachment, from the string union in src/types.ts. -/
inductive MediaType
  | image
  | video
  | audio
deriving DecidableEq, Repr

/-- MediaAttachment of src/types.ts.  The base64 payload is kept abstract as a
string. -/
structure MediaAttachment where
  id : String
  type : MediaType
  mimeType : String
  data : String
  previewUrl : Option String
deriving DecidableEq, Repr

/-- ChatMessage of src/types.ts.  The optional attachments array is modelled as
a list, with the absent field identified with the empty list (the code treats
the two identically everywhere it reads the field); groundingChunks are opaque
payloads the formatter never reads. -/
structure ChatMessage where
  id : String
  role : Role
  text : Option String
  attachments : List MediaAttachment
  painLevel : Option Nat
  groundingChunks : List Unit
  timestamp : Nat
deriving DecidableEq, Repr

/-- Session status, from enum AppState in src/types.ts. -/
inductive AppStatus
  | IDLE
  | RECORDING
  | ANALYZING
  | RESULT
  | ERROR
deriving DecidableEq, Repr

/-! Conversation formatter, src/services/geminiService.ts lines 81-121. -/

/-- Fixed prefix of the injected pain note, up to the interpolated level. -/
def painMarker : String := "[System Note: User indicates Pain Level: "

/-- Pain note interpolated into the user text part,
from the template literal at src/services/geminiService.ts line 102
(the template also prepends two newline characters, kept separate here). -/
def painNote (n : Nat) : String := painMarker ++ Nat.repr n ++ "/10]"

/-- Text content computed for a user message: the message text (empty when
absent), then the pain note appended when a pain level is present, then the
default prompt substituted when the text is still empty and the message has no
attachments.  Mirrors lines 98-107 of src/services/geminiService.ts. -/
def userTextContent (msg : ChatMessage) : String :=
  let base := msg.text.getD ""
  let withPain :=
    match msg.painLevel with
    | some n => base ++ "\n\n" ++ painNote n
    | none => base
  if withPain = "" ∧ msg.attachments = [] then "Please analyze this." else withPain

/-- Content part of a formatted request turn.  A text part carries an optional
string because the model branch of the source pushes msg.text unchanged, which
may be absent. -/
inductive Part
  | inlineData (mimeType : String) (data : String)
  | text (content : Option String)
deriving DecidableEq, Repr

/-- Formatted request turn: role plus content parts. -/
structure FormattedMsg where
  role : Role
  parts : List Part
deriving DecidableEq, Repr

/-- Formatter body for one message, from the map callback at
src/services/geminiService.ts lines 81-121: a user turn gets one inlineData
part per attachment followed by a text part pushed only when the computed text
content is non-empty; a model turn gets the stored text as its sole part. -/
def formatMessage (msg : ChatMessage) : FormattedMsg :=
  match msg.role with
  | .user =>
    let attachmentParts := msg.attachments.map fun att => Part.inlineData att.mimeType att.data
    let tc := userTextContent msg
    { role := msg.role
      parts := attachmentParts ++ if tc = "" then [] else [Part.text (some tc)] }
  | .model =>
    { role := msg.role, parts := [Part.text msg.text] }

/-- Formatter over the whole history: the source maps the callback over the
history array (the index parameter is unused). -/
def formatHistory (history : List ChatMessage) : List FormattedMsg :=
  history.map formatMessage

/-- Number of text parts in a parts list. -/
def textPartCount (parts : List Part) : Nat :=
  (parts.filter fun p => match p with | .text _ => true | _ => false).length

/-! Analysis client, src/services/geminiService.ts lines 71-147.  The remote
binding is injected as a function from the formatted history to either a
response or a provider error (carried as a string of arbitrary detail); the try
block of the source wraps the whole call, and the catch rethrows one fixed
message. -/

/-- Response shape of the generate call: the text accessor may be absent. -/
structure GenResponse where
  text : Option String
deriving DecidableEq, Repr

/-- AnalysisResult of src/types.ts with opaque grounding payloads. -/
structure AnalysisResult where
  text : String
  groundingChunks : List Unit
deriving DecidableEq, Repr

/-- Fallback reply text used when the response text is absent or empty,
src/services/geminiService.ts line 136. -/
def fallbackReplyText : String :=
  "I\x27m having trouble understanding right now. Please try again."

/-- Generic failure message thrown by the catch block,
src/services/geminiService.ts line 145. -/
def genericFailureMessage : String :=
  "I couldn\x27t reach the service. Please check your connection and try again."

/-- Embedding of analyzeHealthCondition: format the history, run the injected
generate call on it, wrap the reply, and collapse any error into the one
generic message.  The location argument of the source is unused after the maps
tool was removed, so it is omitted. -/
def analyzeHealthCondition
    (generate : List FormattedMsg → Except String GenResponse)
    (history : List ChatMessage) : Except String AnalysisResult :=
  match generate (formatHistory history) with
  | .ok response =>
    let finalText := match response.text with
      | some t => if t = "" then fallbackReplyText else t
      | none => fallbackReplyText
    .ok { text := finalText, groundingChunks := [] }
  | .error _ => .error genericFailureMessage

/-! Session controller, src/App.tsx.  The component state is a record; the
handlers are state transformers.  Date.now() is passed in as a parameter. -/

/-- Component state of the App root, from the useState hooks at
src/App.tsx lines 9-17 (dark mode, location and refs carry no claim and are
omitted). -/
structure AppSt where
  inputText : String
  attachments : List MediaAttachment
  painLevel : Option Nat
  messages : List ChatMessage
  status : AppStatus
  errorMessage : Option String
deriving DecidableEq, Repr

/-- Initial component state: the argument of each useState hook. -/
def initialAppSt : AppSt :=
  { inputText := ""
    attachments := []
    painLevel := none
    messages := []
    status := .IDLE
    errorMessage := none }

/-- User message built by handleSubmit, src/App.tsx lines 67-74: a follow-up
turn drops the pending attachments and the pain selection. -/
def mkUserMessage (s : AppSt) (isFollowUp : Bool) (now : Nat) : ChatMessage :=
  { id := Nat.repr now
    role := .user
    text := some s.inputText
    attachments := if isFollowUp then [] else s.attachments
    painLevel := if isFollowUp then none else s.painLevel
    groundingChunks := []
    timestamp := now }

/-- Outcome of the synchronous phase of handleSubmit: the state after the
synchronous setter calls, and the history handed to analyzeHealthCondition
(none when the guard made the submit a no-op). -/
structure SubmitOutcome where
  state : AppSt
  request : Option (List ChatMessage)
deriving DecidableEq, Repr

/-- Synchronous phase of handleSubmit, src/App.tsx lines 63-86: guard, build
the user message, append it to the history, clear the inputs, set ANALYZING,
clear the error, and issue the request with the appended history. -/
def handleSubmitSync (s : AppSt) (isFollowUp : Bool) (now : Nat) : SubmitOutcome :=
  if s.inputText = "" ∧ s.attachments = [] ∧ isFollowUp = false then
    { state := s, request := none }
  else if isFollowUp = true ∧ s.inputText = "" then
    { state := s, request := none }
  else
    let newMessage := mkUserMessage s isFollowUp now
    let newHistory := s.messages ++ [newMessage]
    { state :=
      { s with
        messages := newHistory
        inputText := ""
        attachments := if isFollowUp then s.attachments else []
        status := .ANALYZING
        errorMessage := none }
      request := some newHistory }

/-- Model reply message built on a resolved analysis call,
src/App.tsx lines 90-96. -/
def mkModelMessage (resultText : String) (chunks : List Unit) (now : Nat) : ChatMessage :=
  { id := Nat.repr (now + 1)
    role := .model
    text := some resultText
    attachments := []
    painLevel := none
    groundingChunks := chunks
    timestamp := now }

/-- Success continuation of handleSubmit, src/App.tsx lines 88-99: append the
model reply to the current history and set RESULT. -/
def handleSubmitSuccess (s : AppSt) (result : AnalysisResult) (now : Nat) : AppSt :=
  { s with
    messages := s.messages ++ [mkModelMessage result.text result.groundingChunks now]
    status := .RESULT }

/-- Failure continuation of handleSubmit, src/App.tsx lines 100-104: record the
error message (falling back to a fixed string when it is empty) and set ERROR;
the history is not touched. -/
def handleSubmitError (s : AppSt) (errText : String) : AppSt :=
  { s with
    errorMessage :=
      some (if errText = "" then
        "I\x27m having trouble connecting right now. Please check your connection and try again."
      else errText)
    status := .ERROR }

/-- Reset handler, src/App.tsx lines 53-61: every piece of session state goes
back to its initial value (the speech-synthesis cancel is an external effect
with no state here). -/
def resetApp : AppSt := initialAppSt

/-- Levels offered by the pain selector, the array literal at
src/App.tsx line 138. -/
def painScaleLevels : List Nat := [1, 2, 3, 4, 5, 6, 7, 8, 9, 10]

/-- User-interface events that reach the session state.  uiSubmit carries the
clock value; whether the submit is a follow-up is decided by the call sites in
src/App.tsx: handleSubmit(false) is only reachable from the intake button
rendered when messages.length is zero, handleSubmit(true) only from the send
button and Enter handler active when messages.length is positive. -/
inductive Event
  | setInputText (t : String)
  | addAttachment (a : MediaAttachment)
  | removeAttachment (i : String)
  | clickPain (level : Nat)
  | uiSubmit (now : Nat)
  | analysisSuccess (result : AnalysisResult) (now : Nat)
  | analysisError (errText : String)
  | resetSession
deriving Repr

/-- One state transition per event.  clickPain is guarded by membership in
painScaleLevels because those are the only buttons the selector renders; its
update is the ternary at src/App.tsx line 141. -/
def stepEvent (e : Event) (s : AppSt) : AppSt :=
  match e with
  | .setInputText t => { s with inputText := t }
  | .addAttachment a => { s with attachments := s.attachments ++ [a] }
  | .removeAttachment i => { s with attachments := s.attachments.filter fun a => a.id ≠ i }
  | .clickPain level =>
    if level ∈ painScaleLevels then
      { s with painLevel := if s.painLevel = some level then none else some level }
    else s
  | .uiSubmit now => (handleSubmitSync s (!s.messages.isEmpty) now).state
  | .analysisSuccess result now => handleSubmitSuccess s result now
  | .analysisError errText => handleSubmitError s errText
  | .resetSession => resetApp

/-- States the session can reach from the initial state through the events. -/
inductive Reachable : AppSt → Prop
  | init : Reachable initialAppSt
  | step {s : AppSt} (e : Event) : Reachable s → Reachable (stepEvent e s)

/-! Capture component, src/components/Recorder.tsx.  A device stream is a list
of track identifiers; the world maps track identifiers to an active flag.
React closures matter here: a handler reads the state values of the render in
which the closure was created.  cleanupStream therefore takes the captured
state snapshot as an explicit argument, and each exit path supplies the
snapshot its closure actually holds: the cancel button and the recorder onstop
handler hold the render in which the stream is live, while the unmount cleanup
returned by the mount effect (useEffect with an empty dependency array,
src/components/Recorder.tsx lines 19-23) holds the first render, in which the
stream state is still null.  The state setters act on the live component state,
which the unmount path discards, so only the track world matters there. -/

/-- Capture mode of the recorder, from the mode state at
src/components/Recorder.tsx line 12. -/
inductive CaptureMode
  | audio
  | video
deriving DecidableEq, Repr

/-- Acquired device stream: its enumerable tracks. -/
structure MediaStreamM where
  tracks : List Nat
deriving DecidableEq, Repr

/-- Recorder component state, src/components/Recorder.tsx lines 12-14. -/
structure RecorderSt where
  mode : Option CaptureMode
  isRecording : Bool
  stream : Option MediaStreamM
deriving DecidableEq, Repr

/-- Initial recorder state: every useState argument. -/
def initialRecorderSt : RecorderSt :=
  { mode := none, isRecording := false, stream := none }

/-- Stop every track of a stream in the world, the forEach at
src/components/Recorder.tsx line 33. -/
def stopTracks (ms : MediaStreamM) (active : Nat → Bool) : Nat → Bool :=
  fun t => if t ∈ ms.tracks then false else active t

/-- Embedding of cleanupStream, src/components/Recorder.tsx lines 31-38: when
the captured stream value is non-null, stop each of its tracks and null the
stream; always clear the mode and the recording flag. -/
def cleanupStream (captured : RecorderSt) (active : Nat → Bool) :
    RecorderSt × (Nat → Bool) :=
  match captured.stream with
  | some ms =>
    ({ stream := none, mode := none, isRecording := false }, stopTracks ms active)
  | none =>
    ({ captured with mode := none, isRecording := false }, active)

/-- Cancel exit path: the X button calls cleanupStream from the current
render, whose closure holds the current state. -/
def cancelExit (current : RecorderSt) (active : Nat → Bool) :
    RecorderSt × (Nat → Bool) :=
  cleanupStream current active

/-- Recording-completion exit path: the onstop handler installed by
startRecording ends with cleanupStream from the render that started the
recording, whose closure holds the acquired stream
(src/components/Recorder.tsx lines 71-84). -/
def recordingCompleteExit (atStart : RecorderSt) (active : Nat → Bool) :
    RecorderSt × (Nat → Bool) :=
  cleanupStream atStart active

/-- Teardown exit path: the cleanup returned by the mount effect was created on
the first render, so its cleanupStream closure holds the initial state, whose
stream is null. -/
def teardownExit (active : Nat → Bool) : RecorderSt × (Nat → Bool) :=
  cleanupStream initialRecorderSt active

/-- World with exactly one acquired track (identifier 0) still active, the
situation right after startStream succeeds on a one-track device. -/
def oneActiveTrack : Nat → Bool := fun t => t == 0

/-! Concrete fixtures used by counterexamples and witnesses. -/

/-- Image attachment fixture. -/
def imageAttachmentEx : MediaAttachment :=
  { id := "att1", type := .image, mimeType := "image/png", data := "AAAA", previewUrl := none }

/-- User message fixture carrying one attachment, empty text and no pain
level, the shape an attachments-only first submit produces. -/
def mediaOnlyMessageEx : ChatMessage :=
  { id := "m1", role := .user, text := some "", attachments := [imageAttachmentEx],
    painLevel := none, groundingChunks := [], timestamp := 0 }

/-- User message fixture with plain text and no pain level. -/
def textMsgEx : ChatMessage :=
  { id := "t1", role := .user, text := some "My arm hurts", attachments := [],
    painLevel := none, groundingChunks := [], timestamp := 0 }

/-- User message fixture with plain text and pain level 7. -/
def painMsgEx : ChatMessage :=
  { id := "t2", role := .user, text := some "My arm hurts", attachments := [],
    painLevel := some 7, groundingChunks := [], timestamp := 0 }

/-- Mid-conversation app state fixture: one stored message, new follow-up
text, leftover attachment and pain selections. -/
def followUpStateEx : AppSt :=
  { inputText := "it still hurts", attachments := [imageAttachmentEx], painLevel := some 7,
    messages := [mediaOnlyMessageEx], status := .RESULT, errorMessage := none }

/-- Invariant behind claim C8: every message after the first one that has the
user role carries no attachments and no pain level. -/
def followUpTurnsClean (msgs : List ChatMessage) : Prop :=
  ∀ m ∈ msgs.tail, m.role = .user → m.attachments = [] ∧ m.painLevel = none

/-- Invariant behind claim C10: the pain selection is absent or an integer
between 1 and 10. -/
def painLevelInRange (p : Option Nat) : Prop :=
  p = none ∨ ∃ n, p = some n ∧ 1 ≤ n ∧ n ≤ 10

/-! Helper lemmas. -/

/-- Helper: the fixed marker is a prefix of the pain note for every level. -/
theorem painMarker_starts_painNote (n : Nat) : painMarker.data <+: (painNote n).data := by
  have h : painNote n = painMarker ++ (Nat.repr n ++ "/10]") := by
    simp [painNote, String.append_assoc]
  rw [h, String.data_append]
  exact List.prefix_append _ _

/-- Helper: a string free of the marker is free of every pain note. -/
theorem not_painNote_infix {s : String} (h : ¬ painMarker.data <:+: s.data) (n : Nat) :
    ¬ (painNote n).data <:+: s.data :=
  fun hn => h (List.IsInfix.trans (painMarker_starts_painNote n).isInfix hn)

/-- Helper: appending the pain note yields a non-empty string. -/
theorem withPain_ne_empty (b : String) (n : Nat) : b ++ "\n\n" ++ painNote n ≠ "" := by
  intro h
  have hl := congrArg String.length h
  rw [String.length_append, String.length_append] at hl
  have h2 : ("\n\n" : String).length = 2 := rfl
  have h0 : ("" : String).length = 0 := rfl
  rw [h2, h0] at hl
  omega

/-- Helper: the computed text content with no pain level present. -/
theorem userTextContent_none {msg : ChatMessage} (h : msg.painLevel = none) :
    userTextContent msg =
      if msg.text.getD "" = "" ∧ msg.attachments = [] then "Please analyze this."
      else msg.text.getD "" := by
  simp only [userTextContent, h]

/-- Helper: the computed text content with a pain level present. -/
theorem userTextContent_some {msg : ChatMessage} {n : Nat} (h : msg.painLevel = some n) :
    userTextContent msg = msg.text.getD "" ++ "\n\n" ++ painNote n := by
  simp only [userTextContent, h]
  rw [if_neg]
  intro hc
  exact withPain_ne_empty _ _ hc.1

/-- Helper: the default prompt is free of the marker. -/
theorem default_prompt_no_marker : ¬ painMarker.data <:+: "Please analyze this.".data := by
  decide

/-- Helper: parts of a formatted user message. -/
theorem formatMessage_user_parts {msg : ChatMessage} (h : msg.role = .user) :
    (formatMessage msg).parts =
      (msg.attachments.map fun att => Part.inlineData att.mimeType att.data)
        ++ if userTextContent msg = "" then [] else [Part.text (some (userTextContent msg))] := by
  obtain ⟨i, role, text, atts, pain, gc, ts⟩ := msg
  cases role with
  | user => rfl
  | model => exact absurd h (by simp)

/-- C1: in the formatter, a user message with an absent pain level gets no
pain note injected into its text part (the emitted text part is the message
text or the default prompt, so it is free of the note whenever the message
text itself is free of the fixed marker), while a pain level n gets the note
for exactly n appended verbatim at the end of the text part, after the two
newline characters of the template literal. -/
theorem formatMessage_pain_note (msg : ChatMessage) (hrole : msg.role = .user) :
    (msg.painLevel = none →
      ¬ painMarker.data <:+: (msg.text.getD "").data →
      ∀ p ∈ (formatMessage msg).parts, ∀ s, p = Part.text (some s) →
        ∀ n, ¬ (painNote n).data <:+: s.data)
    ∧ (∀ n, msg.painLevel = some n →
      (formatMessage msg).parts =
        (msg.attachments.map fun att => Part.inlineData att.mimeType att.data)
          ++ [Part.text (some (msg.text.getD "" ++ "\n\n" ++ painNote n))]) := by
  constructor
  · intro hpain htext p hp s hps n
    rw [formatMessage_user_parts hrole] at hp
    rcases List.mem_append.mp hp with h | h
    · obtain ⟨att, -, hatt⟩ := List.mem_map.mp h
      rw [hps] at hatt
      exact absurd hatt (by simp)
    · by_cases hc : userTextContent msg = ""
      · rw [if_pos hc] at h
        exact absurd h (List.not_mem_nil p)
      · rw [if_neg hc] at h
        have hpt : Part.text (some s) = Part.text (some (userTextContent msg)) := by
          rw [← hps]
          exact List.eq_of_mem_singleton h
        have hs : s = userTextContent msg := by
          injection hpt with h1
          injection h1
        rw [hs, userTextContent_none hpain]
        by_cases hd : msg.text.getD "" = "" ∧ msg.attachments = []
        · rw [if_pos hd]
          exact not_painNote_infix default_prompt_no_marker n
        · rw [if_neg hd]
          exact not_painNote_infix htext n
  · intro n hpain
    rw [formatMessage_user_parts hrole, userTextContent_some hpain,
      if_neg (withPain_ne_empty _ _)]

/-- Witness for C1 at concrete inputs: a plain text message with no pain level
has a text part free of the level-3 note, and the same message with pain
level 7 formats to a single text part ending in the note for 7. -/
theorem formatMessage_pain_note_witness :
    ¬ (painNote 3).data <:+: "My arm hurts".data
    ∧ (formatMessage painMsgEx).parts
        = [Part.text (some ("My arm hurts" ++ "\n\n" ++ painNote 7))] :=
  ⟨(formatMessage_pain_note textMsgEx rfl).1 rfl (by decide)
      (Part.text (some "My arm hurts")) (by decide) "My arm hurts" rfl 3,
    by
      have h := (formatMessage_pain_note painMsgEx rfl).2 7 rfl
      simpa [painMsgEx] using h⟩

/-- Counterexample for C2: a user message with one attachment, empty text and
no pain level formats to the attachment part alone, with no text part at all. -/
theorem formatMessage_missing_text_part :
    (formatMessage mediaOnlyMessageEx).parts = [Part.inlineData "image/png" "AAAA"]
    ∧ textPartCount (formatMessage mediaOnlyMessageEx).parts = 0 :=
  ⟨rfl, rfl⟩

/-- C2 (amended): a formatted user turn is one inlineData part per attachment
followed by at most one text part; the text part is omitted exactly when the
message text is empty, the pain level is absent and attachments are present;
when text, pain level and attachments are all absent the text part is the
default prompt; and every formatted user turn is non-empty. -/
theorem formatMessage_user_parts_shape (msg : ChatMessage) (hrole : msg.role = .user) :
    (formatMessage msg).parts =
      (msg.attachments.map fun att => Part.inlineData att.mimeType att.data)
        ++ (if userTextContent msg = "" then [] else [Part.text (some (userTextContent msg))])
    ∧ (msg.text.getD "" = "" → msg.painLevel = none → msg.attachments = [] →
        userTextContent msg = "Please analyze this.")
    ∧ (userTextContent msg = "" ↔
        msg.text.getD "" = "" ∧ msg.painLevel = none ∧ msg.attachments ≠ [])
    ∧ (formatMessage msg).parts ≠ [] := by
  have hshape := formatMessage_user_parts hrole
  have hiff : userTextContent msg = "" ↔
      msg.text.getD "" = "" ∧ msg.painLevel = none ∧ msg.attachments ≠ [] := by
    constructor
    · intro hz
      cases hpl : msg.painLevel with
      | some n =>
        rw [userTextContent_some hpl] at hz
        exact absurd hz (withPain_ne_empty _ _)
      | none =>
        rw [userTextContent_none hpl] at hz
        by_cases hd : msg.text.getD "" = "" ∧ msg.attachments = []
        · rw [if_pos hd] at hz
          exact absurd hz (by decide)
        · rw [if_neg hd] at hz
          exact ⟨hz, rfl, fun hatts => hd ⟨hz, hatts⟩⟩
    · rintro ⟨ht, hp, ha⟩
      rw [userTextContent_none hp, if_neg]
      · exact ht
      · rintro ⟨-, h2⟩
        exact ha h2
  refine ⟨hshape, ?_, hiff, ?_⟩
  · intro ht hp ha
    rw [userTextContent_none hp, if_pos ⟨ht, ha⟩]
  · rw [hshape]
    cases hatts : msg.attachments with
    | nil =>
      have hne : userTextContent msg ≠ "" := fun hz => ((hiff.mp hz).2.2) hatts
      rw [if_neg hne]
      simp
    | cons a l => simp

/-- Witness for C2 (amended) at a concrete input: the attachments-only message
formats to its attachment part with the text part omitted, and the turn is
non-empty. -/
theorem formatMessage_user_parts_shape_witness :
    userTextContent mediaOnlyMessageEx = ""
    ∧ (formatMessage mediaOnlyMessageEx).parts ≠ [] :=
  ⟨(formatMessage_user_parts_shape mediaOnlyMessageEx rfl).2.2.1.mpr
      ⟨rfl, rfl, by decide⟩,
    (formatMessage_user_parts_shape mediaOnlyMessageEx rfl).2.2.2⟩

/-- C3: formatting a history with one message appended yields the formatted
turns of the original history unchanged, followed by the one formatted turn of
the appended message; prior turns are never rewritten (the source maps a
per-message callback whose index argument is unused). -/
theorem formatHistory_append (H : List ChatMessage) (m : ChatMessage) :
    formatHistory (H ++ [m]) = formatHistory H ++ [formatMessage m] := by
  simp [formatHistory]

/-- C4: when the submit guard passes, the history handed to the analysis call
is exactly the stored messages in order followed by the one new user message,
that same history is already in the component state produced by the
synchronous phase (so it is in place before the asynchronous call resolves),
and the status is ANALYZING. -/
theorem handleSubmit_request_history (s : AppSt) (isFollowUp : Bool) (now : Nat)
    (hg1 : ¬ (s.inputText = "" ∧ s.attachments = [] ∧ isFollowUp = false))
    (hg2 : ¬ (isFollowUp = true ∧ s.inputText = "")) :
    (handleSubmitSync s isFollowUp now).request
        = some (s.messages ++ [mkUserMessage s isFollowUp now])
    ∧ (handleSubmitSync s isFollowUp now).state.messages
        = s.messages ++ [mkUserMessage s isFollowUp now]
    ∧ (handleSubmitSync s isFollowUp now).state.status = .ANALYZING := by
  rw [handleSubmitSync, if_neg hg1, if_neg hg2]
  exact ⟨rfl, rfl, rfl⟩

/-- Witness for C4 at a concrete input: a first submit with text issues the
request for the one-message history and stores it synchronously. -/
theorem handleSubmit_request_history_witness :
    (handleSubmitSync { initialAppSt with inputText := "sore knee" } false 5).request
        = some ([] ++ [mkUserMessage { initialAppSt with inputText := "sore knee" } false 5])
    ∧ (handleSubmitSync { initialAppSt with inputText := "sore knee" } false 5).state.status
        = .ANALYZING :=
  ⟨(handleSubmit_request_history { initialAppSt with inputText := "sore knee" } false 5
      (by decide) (by decide)).1,
    (handleSubmit_request_history { initialAppSt with inputText := "sore knee" } false 5
      (by decide) (by decide)).2.2⟩

/-- C5: when the analysis call rejects after a submit, the failure
continuation sets the status to ERROR, the history still holds the
just-submitted user message (unchanged from the synchronous phase), and every
model-role message of the resulting history was already stored before the
submit, so no model message is appended. -/
theorem handleSubmit_error_path (s : AppSt) (isFollowUp : Bool) (now : Nat) (errText : String)
    (hg1 : ¬ (s.inputText = "" ∧ s.attachments = [] ∧ isFollowUp = false))
    (hg2 : ¬ (isFollowUp = true ∧ s.inputText = "")) :
    (handleSubmitError (handleSubmitSync s isFollowUp now).state errText).status = .ERROR
    ∧ (handleSubmitError (handleSubmitSync s isFollowUp now).state errText).messages
        = s.messages ++ [mkUserMessage s isFollowUp now]
    ∧ (mkUserMessage s isFollowUp now).role = .user
    ∧ (∀ m ∈ (handleSubmitError (handleSubmitSync s isFollowUp now).state errText).messages,
        m.role = .model → m ∈ s.messages) := by
  have hmsgs := (handleSubmit_request_history s isFollowUp now hg1 hg2).2.1
  refine ⟨rfl, ?_, rfl, ?_⟩
  · rw [handleSubmitError]
    exact hmsgs
  · intro m hm hrole
    rw [handleSubmitError] at hm
    dsimp only at hm
    rw [hmsgs] at hm
    rcases List.mem_append.mp hm with h | h
    · exact h
    · have hu := List.eq_of_mem_singleton h
      rw [hu] at hrole
      exact absurd hrole (by simp [mkUserMessage])

/-- Witness for C5 at a concrete input: a rejected first submit ends in ERROR
with the user message retained. -/
theorem handleSubmit_error_path_witness :
    (handleSubmitError
        (handleSubmitSync { initialAppSt with inputText := "sore knee" } false 5).state
        "boom").status = .ERROR
    ∧ (handleSubmitError
        (handleSubmitSync { initialAppSt with inputText := "sore knee" } false 5).state
        "boom").messages
      = [] ++ [mkUserMessage { initialAppSt with inputText := "sore knee" } false 5] :=
  ⟨(handleSubmit_error_path { initialAppSt with inputText := "sore knee" } false 5 "boom"
      (by decide) (by decide)).1,
    (handleSubmit_error_path { initialAppSt with inputText := "sore knee" } false 5 "boom"
      (by decide) (by decide)).2.1⟩

/-- C6: whatever provider or transport error the generate call raises, and
whatever the history, the analysis client fails with the one fixed
user-safe message, so the surfaced message never varies with the underlying
error detail. -/
theorem analyzeHealthCondition_generic_failure
    (history : List ChatMessage) (errDetail : String) :
    analyzeHealthCondition (fun _ => .error errDetail) history
      = .error genericFailureMessage := by
  simp [analyzeHealthCondition]

/-- C7: when the guard rejects the submit (no text, no attachment and not a
follow-up; or a follow-up with empty text), the synchronous phase returns the
state unchanged in every field and issues no request, so nothing is raised and
no notice is produced. -/
theorem handleSubmit_rejected_noop (s : AppSt) (isFollowUp : Bool) (now : Nat)
    (h : (s.inputText = "" ∧ s.attachments = [] ∧ isFollowUp = false)
      ∨ (isFollowUp = true ∧ s.inputText = "")) :
    handleSubmitSync s isFollowUp now = { state := s, request := none } := by
  rcases h with h | h
  · rw [handleSubmitSync, if_pos h]
  · by_cases h1 : s.inputText = "" ∧ s.attachments = [] ∧ isFollowUp = false
    · rw [handleSubmitSync, if_pos h1]
    · rw [handleSubmitSync, if_neg h1, if_pos h]

/-- Witness for C7 at a concrete input: an empty intake submit leaves the
initial state untouched and issues no request. -/
theorem handleSubmit_rejected_noop_witness :
    handleSubmitSync initialAppSt false 0 = { state := initialAppSt, request := none } :=
  handleSubmit_rejected_noop initialAppSt false 0 (Or.inl ⟨rfl, rfl, rfl⟩)

/-- Helper: the synchronous submit phase either leaves the history unchanged
or appends exactly the one new user message. -/
theorem handleSubmitSync_messages (s : AppSt) (fu : Bool) (now : Nat) :
    (handleSubmitSync s fu now).state.messages = s.messages
    ∨ (handleSubmitSync s fu now).state.messages
        = s.messages ++ [mkUserMessage s fu now] := by
  rw [handleSubmitSync]
  by_cases h1 : s.inputText = "" ∧ s.attachments = [] ∧ fu = false
  · rw [if_pos h1]
    exact Or.inl rfl
  · rw [if_neg h1]
    by_cases h2 : fu = true ∧ s.inputText = ""
    · rw [if_pos h2]
      exact Or.inl rfl
    · rw [if_neg h2]
      exact Or.inr rfl

/-- Helper: the synchronous submit phase never changes the pain selection. -/
theorem handleSubmitSync_painLevel (s : AppSt) (fu : Bool) (now : Nat) :
    (handleSubmitSync s fu now).state.painLevel = s.painLevel := by
  rw [handleSubmitSync]
  by_cases h1 : s.inputText = "" ∧ s.attachments = [] ∧ fu = false
  · rw [if_pos h1]
  · rw [if_neg h1]
    by_cases h2 : fu = true ∧ s.inputText = ""
    · rw [if_pos h2]
    · rw [if_neg h2]

/-- Helper: every event preserves the cleanliness of follow-up turns. -/
theorem followUpTurnsClean_step (e : Event) (s : AppSt)
    (h : followUpTurnsClean s.messages) :
    followUpTurnsClean (stepEvent e s).messages := by
  cases e with
  | setInputText t => exact h
  | addAttachment a => exact h
  | removeAttachment i => exact h
  | clickPain level =>
    show followUpTurnsClean (if level ∈ painScaleLevels then _ else s).messages
    by_cases hmem : level ∈ painScaleLevels
    · rw [if_pos hmem]
      exact h
    · rw [if_neg hmem]
      exact h
  | uiSubmit now =>
    show followUpTurnsClean (handleSubmitSync s (!s.messages.isEmpty) now).state.messages
    rcases handleSubmitSync_messages s (!s.messages.isEmpty) now with hm | hm
    · rw [hm]
      exact h
    · rw [hm]
      cases hms : s.messages with
      | nil =>
        intro x hx
        simp only [List.nil_append, List.tail_cons] at hx
        exact absurd hx (List.not_mem_nil x)
      | cons a t =>
        rw [hms] at h
        intro x hx hxrole
        simp only [List.cons_append, List.tail_cons] at hx
        rcases List.mem_append.mp hx with hx | hx
        · exact h x hx hxrole
        · have hxu := List.eq_of_mem_singleton hx
          rw [hxu]
          exact ⟨rfl, rfl⟩
  | analysisSuccess result now =>
    show followUpTurnsClean (s.messages ++ [mkModelMessage result.text result.groundingChunks now])
    cases hms : s.messages with
    | nil =>
      intro x hx
      simp only [List.nil_append, List.tail_cons] at hx
      exact absurd hx (List.not_mem_nil x)
    | cons a t =>
      rw [hms] at h
      intro x hx hxrole
      simp only [List.cons_append, List.tail_cons] at hx
      rcases List.mem_append.mp hx with hx | hx
      · exact h x hx hxrole
      · have hxm := List.eq_of_mem_singleton hx
        rw [hxm] at hxrole
        exact absurd hxrole (by simp [mkModelMessage])
  | analysisError errText => exact h
  | resetSession =>
    intro x hx
    exact absurd hx (List.not_mem_nil x)

/-- C8: a follow-up submit (the only submit reachable once the history is
non-empty) appends a user message whose attachment list is empty and whose
pain level is absent, regardless of the pending attachment and pain
selections; consequently in every reachable session state only the first
stored turn can be a user turn carrying attachments or a pain level. -/
theorem followUp_resets_media_and_pain :
    (∀ (s : AppSt) (now : Nat), s.messages ≠ [] → s.inputText ≠ "" →
      (stepEvent (.uiSubmit now) s).messages = s.messages ++ [mkUserMessage s true now]
      ∧ (mkUserMessage s true now).attachments = []
      ∧ (mkUserMessage s true now).painLevel = none
      ∧ (mkUserMessage s true now).role = .user)
    ∧ (∀ s : AppSt, Reachable s → followUpTurnsClean s.messages) := by
  constructor
  · intro s now hmsgs htext
    have hfu : (!s.messages.isEmpty) = true := by
      cases hms : s.messages with
      | nil => exact absurd hms hmsgs
      | cons a t => rfl
    have h := handleSubmit_request_history s (!s.messages.isEmpty) now
      (fun hc => htext hc.1) (fun hc => htext hc.2)
    rw [hfu] at h
    refine ⟨?_, rfl, rfl, rfl⟩
    show (handleSubmitSync s (!s.messages.isEmpty) now).state.messages = _
    rw [hfu]
    exact h.2.1
  · intro s hr
    induction hr with
    | init =>
      intro x hx
      simp [initialAppSt] at hx
    | step e hr ih => exact followUpTurnsClean_step e _ ih

/-- Witness for C8 at a concrete input: with one stored message, a leftover
attachment and pain level 7 selected, the follow-up submit appends a clean
user message. -/
theorem followUp_resets_media_and_pain_witness :
    (stepEvent (.uiSubmit 9) followUpStateEx).messages
      = followUpStateEx.messages ++ [mkUserMessage followUpStateEx true 9]
    ∧ (mkUserMessage followUpStateEx true 9).attachments = []
    ∧ (mkUserMessage followUpStateEx true 9).painLevel = none
    ∧ (mkUserMessage followUpStateEx true 9).role = .user :=
  followUp_resets_media_and_pain.1 followUpStateEx 9 (by decide) (by decide)

/-- Helper: every event keeps the pain selection absent or between 1 and 10. -/
theorem painLevelInRange_step (e : Event) (s : AppSt)
    (h : painLevelInRange s.painLevel) :
    painLevelInRange (stepEvent e s).painLevel := by
  cases e with
  | setInputText t => exact h
  | addAttachment a => exact h
  | removeAttachment i => exact h
  | uiSubmit now =>
    show painLevelInRange (handleSubmitSync s (!s.messages.isEmpty) now).state.painLevel
    rw [handleSubmitSync_painLevel]
    exact h
  | analysisSuccess result now => exact h
  | analysisError errText => exact h
  | resetSession => exact Or.inl rfl
  | clickPain level =>
    show painLevelInRange (if level ∈ painScaleLevels then _ else s).painLevel
    by_cases hmem : level ∈ painScaleLevels
    · rw [if_pos hmem]
      show painLevelInRange (if s.painLevel = some level then none else some level)
      by_cases hsel : s.painLevel = some level
      · rw [if_pos hsel]
        exact Or.inl rfl
      · rw [if_neg hsel]
        refine Or.inr ⟨level, rfl, ?_⟩
        simp only [painScaleLevels, List.mem_cons, List.not_mem_nil, or_false] at hmem
        rcases hmem with rfl | rfl | rfl | rfl | rfl | rfl | rfl | rfl | rfl | rfl <;> omega
    · rw [if_neg hmem]
      exact h

/-- C10: the selector renders exactly the levels 1 through 10 (level 0 is
never offered even though the data model admits 0), every reachable session
state has a pain selection that is absent or an integer between 1 and 10, and
clicking the level that is currently selected resets the selection to
absent. -/
theorem painLevel_range_invariant :
    painScaleLevels = [1, 2, 3, 4, 5, 6, 7, 8, 9, 10]
    ∧ (∀ s : AppSt, Reachable s → painLevelInRange s.painLevel)
    ∧ (∀ (s : AppSt) (level : Nat), level ∈ painScaleLevels → s.painLevel = some level →
        (stepEvent (.clickPain level) s).painLevel = none) := by
  refine ⟨rfl, ?_, ?_⟩
  · intro s hr
    induction hr with
    | init => exact Or.inl rfl
    | step e hr ih => exact painLevelInRange_step e _ ih
  · intro s level hmem hsel
    show (if level ∈ painScaleLevels then _ else s).painLevel = none
    rw [if_pos hmem]
    show (if s.painLevel = some level then none else some level) = none
    rw [if_pos hsel]

/-- Witness for C10 at concrete inputs: the initial state is in range, and
clicking the selected level 7 resets the selection. -/
theorem painLevel_range_invariant_witness :
    painLevelInRange initialAppSt.painLevel
    ∧ (stepEvent (.clickPain 7) followUpStateEx).painLevel = none :=
  ⟨painLevel_range_invariant.2.1 initialAppSt Reachable.init,
    painLevel_range_invariant.2.2 followUpStateEx 7 (by decide) rfl⟩

/-- C9 (code behaviour at the failing input): the cancel and
recording-completion exit paths run cleanupStream with a closure that holds
the live stream, and stop every one of its tracks; the teardown exit path runs
the first-render closure, whose captured stream is null, so with one acquired
track still active the unmount leaves that track active instead of stopping
it. -/
theorem cleanupStream_exit_paths :
    (∀ (st : RecorderSt) (ms : MediaStreamM) (active : Nat → Bool),
        st.stream = some ms → ∀ t ∈ ms.tracks,
          (cancelExit st active).2 t = false
          ∧ (recordingCompleteExit st active).2 t = false)
    ∧ (teardownExit oneActiveTrack).2 0 = true := by
  constructor
  · intro st ms active hst t ht
    constructor <;>
      simp [cancelExit, recordingCompleteExit, cleanupStream, hst, stopTracks, ht]
  · rfl

/-- Witness for C9 at concrete inputs: cancelling with a one-track stream
stops its track, while teardown with the same one-track world leaves the track
active. -/
theorem cleanupStream_exit_paths_witness :
    (cancelExit
        { mode := some .video, isRecording := true, stream := some { tracks := [0] } }
        oneActiveTrack).2 0 = false
    ∧ (teardownExit oneActiveTrack).2 0 = true :=
  ⟨(cleanupStream_exit_paths.1
      { mode := some .video, isRecording := true, stream := some { tracks := [0] } }
      { tracks := [0] } oneActiveTrack rfl 0 (by decide)).1,
    cleanupStream_exit_paths.2⟩

end HealthTriage
